import Mathlib

/-!
# Verification of `shared_state.py`

A shallow embedding of the three components of the repository's
`shared_state.py` module, together with theorems checking the
natural-language specification against the code:

* `parse_proxy_line` — the proxy descriptor parser (lines 12–49),
* `try_process_with_retries` — the retry/failover orchestrator (lines 109–184),
* `save_live_cc_to_json` — the per-(user, worker) append-log writer (lines 63–105).

Python strings are modeled as Lean `String`/`List Char` (ASCII: `\w`,
`isalpha()`, `lower()` are modeled by their ASCII behaviour, which covers
every input considered below).  Python `int()` is modeled for optionally
signed decimal digit strings; the `_` digit-separator form is never fed to
it by any statement below.  Fallible Python code is modeled with `Except`;
the single error value `()` stands for the raised exception
(ValueError / AttributeError).
-/

namespace SharedState

/-- Decidable equality for `Except`, used to evaluate the model on
concrete inputs. -/
instance {ε α : Type} [DecidableEq ε] [DecidableEq α] : DecidableEq (Except ε α) := by
  intro a b
  cases a <;> cases b
  case error.error e f => exact decidable_of_iff (e = f) (by simp)
  case ok.ok x y => exact decidable_of_iff (x = y) (by simp)
  all_goals exact isFalse (by intro h; cases h)

/-! ## Character classes of the regex patterns -/

/-- `\w` together with `.` and `-`: the class `[\w\.-]` of the host token. -/
def isWordC (c : Char) : Bool :=
  c.isAlphanum || c == '_' || c == '.' || c == '-'

/-- The class `[^:@]` used for user/pass tokens. -/
def isPlainC (c : Char) : Bool :=
  !(c == ':') && !(c == '@')

/-- Whitespace as stripped by Python `str.strip()`: exactly the code
points for which `str.isspace()` holds (0x09-0x0D, 0x1C-0x20, NEL 0x85,
NBSP 0xA0, and the Unicode space separators). -/
def isWs (c : Char) : Bool :=
  decide ((9 ≤ c.toNat ∧ c.toNat ≤ 13) ∨ (28 ≤ c.toNat ∧ c.toNat ≤ 32)
    ∨ c.toNat = 0x85 ∨ c.toNat = 0xa0 ∨ c.toNat = 0x1680
    ∨ (0x2000 ≤ c.toNat ∧ c.toNat ≤ 0x200a)
    ∨ c.toNat = 0x2028 ∨ c.toNat = 0x2029 ∨ c.toNat = 0x202f
    ∨ c.toNat = 0x205f ∨ c.toNat = 0x3000)

/-! ## Input normalization: `line.strip().replace(" ", "")` -/

/-- `str.strip()` on the character list. -/
def pyStrip (cs : List Char) : List Char :=
  ((cs.dropWhile isWs).reverse.dropWhile isWs).reverse

/-- `line.strip().replace(" ", "")`. -/
def pyNormalize (cs : List Char) : List Char :=
  (pyStrip cs).filter (fun c => !(c == ' '))

/-! ## `int()` and the host-likeness test -/

/-- Decimal value of a digit list. -/
def digitsVal (cs : List Char) : Nat :=
  cs.foldl (fun a c => a * 10 + (c.toNat - '0'.toNat)) 0

/-- Python `int(s)` on a string: strip, optional sign, decimal digits;
anything else raises ValueError. -/
def pyInt (cs : List Char) : Except Unit Int :=
  let t := (pyStrip cs)
  match t with
  | '+' :: ds =>
      if !ds.isEmpty && ds.all Char.isDigit then .ok (digitsVal ds) else .error ()
  | '-' :: ds =>
      if !ds.isEmpty && ds.all Char.isDigit then .ok (-(digitsVal ds : Int)) else .error ()
  | ds =>
      if !ds.isEmpty && ds.all Char.isDigit then .ok (digitsVal ds) else .error ()

/-- `g.replace(".", "").isalpha() or g.count(".") >= 1`
(`contains '.'` is exactly `count ≥ 1`). -/
def hostLike (g : List Char) : Bool :=
  let f := g.filter (fun c => !(c == '.'))
  (!f.isEmpty && f.all Char.isAlpha) || g.contains '.'

/-! ## The five regex patterns

Each pattern of the source is compiled by hand into a deterministic
matcher.  This is faithful because in every pattern each quantified
character class excludes the delimiter that follows it (`[\w\.-]` and
`[^:@]` exclude `:` and the classes exclude `@` where `@` follows), so
the backtracking regex engine has exactly one way to split a matching
line; `\d{2,6}` followed by `:`/`@`/end likewise forces the full digit
run, of length 2–6.  `.` does not match `'\n'`, and since the matched
line is the output of `strip()`, `$` can only match at the end of the
string. -/

/-- Groups of a four-group pattern. -/
structure G4 where
  a : List Char
  b : List Char
  c : List Char
  d : List Char
deriving DecidableEq, Repr

/-- `^([\w\.-]+):(\d{2,6}):([^:@]+):(.+)$` — `host:port:user:pass`. -/
def pat1 (cs : List Char) : Option G4 :=
  let g1 := cs.takeWhile isWordC
  match cs.dropWhile isWordC with
  | ':' :: r2 =>
    if g1.isEmpty then none else
    let g2 := r2.takeWhile Char.isDigit
    match r2.dropWhile Char.isDigit with
    | ':' :: r3 =>
      if 2 ≤ g2.length && g2.length ≤ 6 then
        let g3 := r3.takeWhile isPlainC
        match r3.dropWhile isPlainC with
        | ':' :: r4 =>
          if g3.isEmpty then none
          else if r4.isEmpty || r4.contains '\n' then none
          else some ⟨g1, g2, g3, r4⟩
        | _ => none
      else none
    | _ => none
  | _ => none

/-- `^([^:@]+):([^:@]+)@([\w\.-]+):(\d{2,6})$` — `user:pass@host:port`. -/
def pat2 (cs : List Char) : Option G4 :=
  let g1 := cs.takeWhile isPlainC
  match cs.dropWhile isPlainC with
  | ':' :: r2 =>
    if g1.isEmpty then none else
    let g2 := r2.takeWhile isPlainC
    match r2.dropWhile isPlainC with
    | '@' :: r3 =>
      if g2.isEmpty then none else
      let g3 := r3.takeWhile isWordC
      match r3.dropWhile isWordC with
      | ':' :: r4 =>
        if g3.isEmpty then none
        else if !r4.isEmpty && r4.all Char.isDigit && 2 ≤ r4.length && r4.length ≤ 6 then
          some ⟨g1, g2, g3, r4⟩
        else none
      | _ => none
    | _ => none
  | _ => none

/-- `^([^:@]+):([^:@]+):([\w\.-]+):(\d{2,6})$` — `user:pass:host:port`. -/
def pat3 (cs : List Char) : Option G4 :=
  let g1 := cs.takeWhile isPlainC
  match cs.dropWhile isPlainC with
  | ':' :: r2 =>
    if g1.isEmpty then none else
    let g2 := r2.takeWhile isPlainC
    match r2.dropWhile isPlainC with
    | ':' :: r3 =>
      if g2.isEmpty then none else
      let g3 := r3.takeWhile isWordC
      match r3.dropWhile isWordC with
      | ':' :: r4 =>
        if g3.isEmpty then none
        else if !r4.isEmpty && r4.all Char.isDigit && 2 ≤ r4.length && r4.length ≤ 6 then
          some ⟨g1, g2, g3, r4⟩
        else none
      | _ => none
    | _ => none
  | _ => none

/-- `^([\w\.-]+):(\d{2,6})@([^:@]+):([^:@]+)$` — `host:port@user:pass`. -/
def pat4 (cs : List Char) : Option G4 :=
  let g1 := cs.takeWhile isWordC
  match cs.dropWhile isWordC with
  | ':' :: r2 =>
    if g1.isEmpty then none else
    let g2 := r2.takeWhile Char.isDigit
    match r2.dropWhile Char.isDigit with
    | '@' :: r3 =>
      if 2 ≤ g2.length && g2.length ≤ 6 then
        let g3 := r3.takeWhile isPlainC
        match r3.dropWhile isPlainC with
        | ':' :: r4 =>
          if g3.isEmpty then none
          else if !r4.isEmpty && r4.all isPlainC then some ⟨g1, g2, g3, r4⟩
          else none
        | _ => none
      else none
    | _ => none
  | _ => none

/-- `^([\w\.-]+):(\d{2,6})$` — `host:port` with no credentials. -/
def pat5 (cs : List Char) : Option (List Char × List Char) :=
  let g1 := cs.takeWhile isWordC
  match cs.dropWhile isWordC with
  | ':' :: r2 =>
    if g1.isEmpty then none
    else if !r2.isEmpty && r2.all Char.isDigit && 2 ≤ r2.length && r2.length ≤ 6 then
      some (g1, r2)
    else none
  | _ => none

/-! ## The parser itself -/

/-- The dict returned by `parse_proxy_line`: host, port and optional
credentials. -/
structure ProxyTarget where
  host : String
  port : Int
  user : Option String
  pw : Option String
deriving DecidableEq, Repr

/-- The disambiguation block of lines 40–48, run on the groups of any
matched four-group pattern.  `none` means no `return` was executed and
the pattern loop falls through to the next pattern. -/
def fourGroupBranch (cs : List Char) (g : G4) :
    Option (Except Unit (Option ProxyTarget)) :=
  if cs.contains '@' || 2 < cs.count ':' then
    if hostLike g.a then
      some ((pyInt g.b).map fun n =>
        some ⟨String.mk g.a, n, some (String.mk g.c), some (String.mk g.d)⟩)
    else if hostLike g.c then
      some ((pyInt g.d).map fun n =>
        some ⟨String.mk g.c, n, some (String.mk g.a), some (String.mk g.b)⟩)
    else none
  else none

/-- Try one four-group pattern; on fall-through continue with `k`. -/
def tryPat (cs : List Char) (g? : Option G4) (k : Except Unit (Option ProxyTarget)) :
    Except Unit (Option ProxyTarget) :=
  match g? with
  | some g => (fourGroupBranch cs g).getD k
  | none => k

/-- The pattern loop of lines 33–49 on the normalized line. -/
def parseCore (cs : List Char) : Except Unit (Option ProxyTarget) :=
  tryPat cs (pat1 cs) <|
    tryPat cs (pat2 cs) <|
      tryPat cs (pat3 cs) <|
        tryPat cs (pat4 cs) <|
          match pat5 cs with
          | some (h, p) => (pyInt p).map fun n => some ⟨String.mk h, n, none, none⟩
          | none => .ok none

/-- `parse_proxy_line` (lines 12–49).  `none` input is Python `None`. -/
def parse_proxy_line (line : Option String) : Except Unit (Option ProxyTarget) :=
  match line with
  | none => .ok none
  | some s =>
    if s.data.isEmpty then .ok none
    else parseCore (pyNormalize s.data)

/-! ## Python values for the retry orchestrator

Dispatch results are arbitrary Python values.  The orchestrator only ever
inspects primitive fields of a result dict, so dict values are modeled as
primitives (`PyPrim`); a top-level result is either a dict or a
primitive (`PyVal`). -/

/-- A primitive Python value. -/
inductive PyPrim where
  | pNone
  | pBool (b : Bool)
  | pInt (n : Int)
  | pStr (s : String)
deriving DecidableEq, Repr

/-- A Python dict with string keys and primitive values, in insertion
order. -/
abbrev PyDict := List (String × PyPrim)

/-- A Python value as returned by the dispatch collaborator. -/
inductive PyVal where
  | prim (p : PyPrim)
  | dict (es : PyDict)
deriving DecidableEq, Repr

/-- Python truthiness of a primitive. -/
def pyTruthy : PyPrim → Bool
  | .pNone => false
  | .pBool b => b
  | .pInt n => !(n == 0)
  | .pStr s => !s.isEmpty

/-- Python `str()` of a primitive. -/
def pyStr : PyPrim → String
  | .pNone => "None"
  | .pBool true => "True"
  | .pBool false => "False"
  | .pInt n => toString n
  | .pStr s => s

/-- `d.get(k)` with default `None`. -/
def dictGet : PyDict → String → PyPrim
  | [], _ => .pNone
  | (k', v) :: rest, k => if k' = k then v else dictGet rest k

/-- `d[k] = v`: replace in place, or append a new key. -/
def dictSet : PyDict → String → PyPrim → PyDict
  | [], k, v => [(k, v)]
  | (k', v') :: rest, k, v =>
    if k' = k then (k, v) :: rest else (k', v') :: dictSet rest k v

/-- ASCII `str.lower()`. -/
def pyLower (s : String) : String :=
  String.mk (s.data.map Char.toLower)

/-- Whether `pat` occurs as a contiguous run at the head of `s`. -/
def headRun : List Char → List Char → Bool
  | [], _ => true
  | _ :: _, [] => false
  | a :: as, b :: bs => a == b && headRun as bs

/-- Python `pat in s` for strings: contiguous substring containment. -/
def subIn (pat : List Char) : List Char → Bool
  | [] => pat.isEmpty
  | c :: tl => headRun pat (c :: tl) || subIn pat tl

/-! ## `try_process_with_retries` (lines 109–184) -/

/-- Line 142–143: a non-dict result is coerced to
`{"status": "DECLINED", "reason": str(result or "Invalid result")}`. -/
def normalizeResult : PyVal → PyDict
  | .dict es => es
  | .prim p =>
    [("status", .pStr "DECLINED"),
     ("reason", .pStr (if pyTruthy p then pyStr p else "Invalid result"))]

/-- Line 145: `(result.get("reason") or "").lower()`.  A truthy non-string
reason raises AttributeError (no `.lower()` on ints/bools). -/
def reasonOf (es : PyDict) : Except Unit String :=
  let rv := dictGet es "reason"
  let rv' := if pyTruthy rv then rv else .pStr ""
  match rv' with
  | .pStr s => .ok (pyLower s)
  | _ => .error ()

/-- Lines 149–154: the dead-site classification on the normalized result
and its lowercased reason. -/
def deadCheck (es : PyDict) (reason : String) : Bool :=
  pyTruthy (dictGet es "site_dead")
    || subIn "site response failed".data reason.data
    || (subIn "request failed".data reason.data && subIn "stripe".data reason.data)
    || subIn "timeout".data reason.data

/-- Classification of a normalized result, propagating the
AttributeError of the reason lookup. -/
def deadFull (es : PyDict) : Except Unit Bool :=
  (reasonOf es).map (deadCheck es)

/-- Outcome of one `remove_user_site` call: the returned boolean, or a
raised exception (swallowed by the `except` on line 171). -/
inductive RemoveOutcome where
  | returned (b : Bool)
  | raised
deriving DecidableEq, Repr

/-- Observable events of one orchestrator session: dispatch attempts
(with the head of the working list at that moment and the site/result
the dispatch returned) and permanent-removal calls. -/
inductive Event where
  | attempt (idx : Nat) (head : String) (site : String) (res : PyDict)
  | removeCall (site : String) (outcome : RemoveOutcome)
deriving DecidableEq, Repr

/-- The mutable state of the attempt loop. -/
structure LoopSt where
  sites : List String
  deadSites : List String
  siteUrl : Option String
  result : Option PyDict
  events : List Event
deriving DecidableEq, Repr

/-- The `while tries < max_tries and user_sites:` loop (lines 129–163).
`fuel` is `max_tries - tries`; `i` the index of the next attempt.  Each
iteration reads `user_sites[0]` (used only for the log line), calls the
dispatch oracle — which returns its own `(site_url, result)` pair,
overwriting the selected head — normalizes the result, and either
records the dispatch-returned site as dead and removes it from the
working list, or breaks. -/
def runLoop (oracle : Nat → String × PyVal) :
    Nat → Nat → LoopSt → Except Unit LoopSt
  | 0, _, st => .ok st
  | fuel + 1, i, st =>
    match st.sites with
    | [] => .ok st
    | hd :: _ =>
      let (s, raw) := oracle i
      let es := normalizeResult raw
      match reasonOf es with
      | .error e => .error e
      | .ok rs =>
        let ev := Event.attempt i hd s es
        if deadCheck es rs then
          runLoop oracle fuel (i + 1)
            { sites := st.sites.erase s
              deadSites := st.deadSites ++ [s]
              siteUrl := some s
              result := some es
              events := st.events ++ [ev] }
        else
          .ok { st with siteUrl := some s, result := some es,
                        events := st.events ++ [ev] }

/-- The cleanup loop of lines 166–172: one `remove_user_site` call per
entry of `dead_sites`, in order; the call's boolean result and any
exception it raises are only printed (the `except` swallows them), so
each call is recorded as an event and nothing else depends on it. -/
def removeEvents (removeO : Nat → RemoveOutcome) : Nat → List String → List Event
  | _, [] => []
  | k, s :: rest => .removeCall s (removeO k) :: removeEvents removeO (k + 1) rest

/-- `{"status": "DECLINED", "reason": "No sites configured", "site_dead": True}` -/
def noSitesDict : PyDict :=
  [("status", .pStr "DECLINED"), ("reason", .pStr "No sites configured"),
   ("site_dead", .pBool true)]

/-- `{"status": "DECLINED", "reason": "All sites failed or removed", "site_dead": True}` -/
def allFailedDict : PyDict :=
  [("status", .pStr "DECLINED"), ("reason", .pStr "All sites failed or removed"),
   ("site_dead", .pBool true)]

/-- The final check of line 175:
`not user_sites and (not result or result.get("site_dead"))`. -/
def finalFallback (sites : List String) (result : Option PyDict) : Bool :=
  sites.isEmpty &&
    (match result with
     | none => true
     | some es => es.isEmpty || pyTruthy (dictGet es "site_dead"))

/-- `try_process_with_retries` (lines 109–184).

* `loadRes` — the guarded `_load_state` + site-key extraction of lines
  116–120 (`error` means the `except` branch ran, yielding `[]`);
* `maxTries` — the `max_tries` argument (`none` = Python `None`; Python
  `max_tries or len(user_sites)` also maps `0` to the list length);
* `oracle i` — the `(site_url, result)` pair returned by the `i`-th call
  of `process_card_for_user_sites`;
* `removeO k` — the outcome of the `k`-th `remove_user_site` call.

Returns the `(site_url, result)` pair together with the event trace, or
propagates the AttributeError of a malformed reason field. -/
def try_process_with_retries (loadRes : Except Unit (List String))
    (maxTries : Option Int) (oracle : Nat → String × PyVal)
    (removeO : Nat → RemoveOutcome) :
    Except Unit ((Option String × Option PyDict) × List Event) :=
  let user_sites := match loadRes with | .ok l => l | .error _ => []
  if user_sites.isEmpty then .ok ((none, some noSitesDict), [])
  else
    let eff : Int :=
      match maxTries with
      | none => (user_sites.length : Int)
      | some m => if m = 0 then (user_sites.length : Int) else m
    match runLoop oracle eff.toNat 0 ⟨user_sites, [], none, none, []⟩ with
    | .error e => .error e
    | .ok st =>
      let events := st.events ++ removeEvents removeO 0 st.deadSites
      if finalFallback st.sites st.result then
        .ok ((none, some allFailedDict), events)
      else
        .ok ((st.siteUrl, st.result), events)

/-! ## `save_live_cc_to_json` (lines 63–105)

The filesystem is a map from paths to file contents.  A content is
either a JSON array of record dicts (what `json.dump` of the function's
own `existing` list produces), some other valid JSON document, or bytes
that `json.load` rejects. -/

/-- Content of one file. -/
inductive FileContent where
  | jarr (items : List PyDict)
  | jother
  | invalid
deriving DecidableEq, Repr

/-- The filesystem: path → content. -/
def Store := String → Option FileContent

/-- The empty filesystem. -/
def emptyStore : Store := fun _ => none

/-- Primitive filesystem steps of one call: writing a file and the
atomic `os.replace`. -/
inductive FSOp where
  | fswrite (path : String) (content : FileContent)
  | fsreplace (src : String) (dst : String)
deriving DecidableEq, Repr

/-- Apply one primitive step. -/
def applyOp (s : Store) : FSOp → Store
  | .fswrite p c => fun q => if q = p then some c else s q
  | .fsreplace src dst =>
    fun q => if q = dst then s src else if q = src then none else s q

/-- Apply a sequence of steps. -/
def applyOps (ops : List FSOp) (s : Store) : Store :=
  ops.foldl applyOp s

/-- A wall-clock instant, and `datetime.now().strftime("%Y-%m-%d %H:%M:%S")`.
The formatted string always contains its literal separators, so it is
never empty. -/
structure Clock where
  year : Nat
  month : Nat
  day : Nat
  hour : Nat
  minute : Nat
  second : Nat
deriving DecidableEq, Repr

/-- Zero-padded two-digit field. -/
def pad2 (n : Nat) : String :=
  if n < 10 then "0" ++ toString n else toString n

/-- `strftime("%Y-%m-%d %H:%M:%S")`. -/
def fmtTs (t : Clock) : String :=
  toString t.year ++ "-" ++ pad2 t.month ++ "-" ++ pad2 t.day ++ " "
    ++ pad2 t.hour ++ ":" ++ pad2 t.minute ++ ":" ++ pad2 t.second

/-- Environment of one call: whether `os.makedirs` succeeds, whether the
write/replace block runs to completion (a `False` stands for an I/O
error raised inside the outer `try`, caught on line 104), and the
current wall-clock time. -/
structure CallEnv where
  mkdirOk : Bool
  writeOk : Bool
  now : Clock
deriving DecidableEq, Repr

/-- `live-cc/<user_id>/Live_cc_<user_id>_<worker_id>.json` -/
def filePath (user_id : String) (worker_id : Int) : String :=
  "live-cc/" ++ user_id ++ "/Live_cc_" ++ user_id ++ "_" ++ toString worker_id ++ ".json"

/-- One call of `save_live_cc_to_json`: returns the filesystem steps the
call performed, the caller's record dict as it stands after the call
(the function mutates it in place), and the resulting filesystem.

* mkdir failure (line 75–77): return immediately, nothing touched;
* timestamp injection (line 82): always happens once the folder exists;
* read of the existing file (lines 86–93): a missing or unparseable file
  yields `[]`; a parseable non-array makes `existing.append` raise,
  which the outer `except` catches — nothing is written;
* write (lines 98–101): dump the full array to `<path>.tmp`, then
  atomically replace; if the block fails midway (`writeOk = false`) the
  target is untouched at most a partial temp file exists. -/
def save_live_cc_to_json (env : CallEnv) (store : Store) (user_id : String)
    (worker_id : Int) (live_data : PyDict) :
    List FSOp × PyDict × Store :=
  if !env.mkdirOk then ([], live_data, store)
  else
    let path := filePath user_id worker_id
    let rec' := dictSet live_data "timestamp" (.pStr (fmtTs env.now))
    match store path with
    | some .jother => ([], rec', store)
    | other =>
      let existing : List PyDict :=
        match other with
        | some (.jarr l) => l
        | _ => []
      if !env.writeOk then
        let ops := [FSOp.fswrite (path ++ ".tmp") .invalid]
        (ops, rec', applyOps ops store)
      else
        let ops := [FSOp.fswrite (path ++ ".tmp") (.jarr (existing ++ [rec'])),
                    FSOp.fsreplace (path ++ ".tmp") path]
        (ops, rec', applyOps ops store)

/-- `n` sequential calls for the same `(user, worker)`: the store after
call `n`. -/
def iterSave (user_id : String) (worker_id : Int) (envs : Nat → CallEnv)
    (recs : Nat → PyDict) : Nat → Store
  | 0 => emptyStore
  | n + 1 =>
    (save_live_cc_to_json (envs n) (iterSave user_id worker_id envs recs n)
      user_id worker_id (recs n)).2.2

/-! ## Spec-side definitions

These definitions transcribe the specification's words, for comparison
with the code-side definitions above. -/

/-- Case-insensitive substring containment, the spec's
"reason text (case-insensitive) contains …". -/
def ciContains (s pat : String) : Bool :=
  subIn (pyLower pat).data (pyLower s).data

/-- Modelled from the spec: "dead-endpoint: result carries
`endpoint_dead = true`, OR reason text (case-insensitive) contains
"site response failed", OR reason contains both "request failed" and
"stripe", OR reason contains "timeout"" — stated on the raw (not yet
lowercased) reason text.  The source stores the flag under the key
`site_dead`. -/
def specDead (es : PyDict) (reasonText : String) : Bool :=
  pyTruthy (dictGet es "site_dead")
    || ciContains reasonText "Site Response Failed"
    || (ciContains reasonText "Request Failed" && ciContains reasonText "Stripe")
    || ciContains reasonText "Timeout"

/-! ## The five supported proxy shapes, as embedding functions -/

/-- Identifier of one of the five supported line shapes. -/
inductive PShape where
  | s1  -- host:port:user:pass
  | s2  -- user:pass@host:port
  | s3  -- user:pass:host:port
  | s4  -- host:port@user:pass
  | s5  -- host:port
deriving DecidableEq, Repr

/-- Embed host/port/user/pass tokens into a line of the given shape. -/
def embedLine : PShape → List Char → List Char → List Char → List Char → List Char
  | .s1, h, p, u, pw => h ++ ':' :: p ++ ':' :: u ++ ':' :: pw
  | .s2, h, p, u, pw => u ++ ':' :: pw ++ '@' :: h ++ ':' :: p
  | .s3, h, p, u, pw => u ++ ':' :: pw ++ ':' :: h ++ ':' :: p
  | .s4, h, p, u, pw => h ++ ':' :: p ++ '@' :: u ++ ':' :: pw
  | .s5, h, p, _, _ => h ++ ':' :: p

/-- Token grammars common to all shapes: `host` is a nonempty `[\w\.-]+`
token, `port` a 2–6 digit token. -/
def baseTok (h p : List Char) : Prop :=
  h ≠ [] ∧ h.all isWordC = true ∧ p.all Char.isDigit = true
    ∧ 2 ≤ p.length ∧ p.length ≤ 6

/-- A dispatch oracle whose every result is a decline whose reason text
says "timeout" but carries no `site_dead` flag. -/
def oTimeout : Nat → String × PyVal := fun _ =>
  ("s", .dict [("status", .pStr "DECLINED"), ("reason", .pStr "timeout")])

/-- The dict of `oTimeout`. -/
def timeoutDict : PyDict :=
  [("status", .pStr "DECLINED"), ("reason", .pStr "timeout")]

/-- A dispatch oracle returning a dict whose `reason` is the integer 5. -/
def oReasonInt : Nat → String × PyVal := fun _ => ("s", .dict [("reason", .pInt 5)])

/-- A dispatch oracle that always reports the endpoint `"z"` dead. -/
def oZDead : Nat → String × PyVal := fun _ => ("z", .dict [("site_dead", .pBool true)])

/-- A dispatch oracle whose first attempt reports `"b"` dead (while the
working list's head is `"a"`) and whose second attempt approves on
`"a"`. -/
def oHeadMiss : Nat → String × PyVal := fun i =>
  if i = 0 then ("b", .dict [("site_dead", .pBool true)])
  else ("a", .dict [("status", .pStr "APPROVED")])

/-- A removal oracle whose calls all succeed. -/
def rOk : Nat → RemoveOutcome := fun _ => .returned true

/-- A removal oracle whose every call raises. -/
def rRaise : Nat → RemoveOutcome := fun _ => .raised

/-! ## Trace observations -/

/-- Whether an event is a dispatch attempt. -/
def isAttemptEv : Event → Bool
  | .attempt _ _ _ _ => true
  | .removeCall _ _ => false

/-- The dispatch-returned site of a dead-classified attempt event. -/
def deadSiteOf : Event → Option String
  | .attempt _ _ s res => if deadFull res = .ok true then some s else none
  | .removeCall _ _ => none

/-- The site of a removal event. -/
def removeSiteOf : Event → Option String
  | .removeCall s _ => some s
  | .attempt _ _ _ _ => none

/-- The record list stored in the log file after `n` sequential calls:
each caller record with the call's timestamp injected, in call order. -/
def savedList (envs : Nat → CallEnv) (recs : Nat → PyDict) (n : Nat) : List PyDict :=
  (List.range n).map fun i => dictSet (recs i) "timestamp" (.pStr (fmtTs (envs i).now))

/-- A concrete all-successful call environment sequence. -/
def envC : Nat → CallEnv := fun i => ⟨true, true, ⟨2025, 1, 2, 3, 4, i⟩⟩

/-- A concrete record sequence. -/
def recsC : Nat → PyDict := fun i => [("card", .pStr (toString i))]

/-! # Theorems -/

/-- **C5** (code bug): the claim says `parse` returns a target or none
"without letting any exception escape", and the docstring says "returns
a dict or None if invalid"; but on the canonical `user:pass@host:port`
line `"bob:pw@site.com:8080"` the disambiguation block sees the
alphabetic user token `"bob"` as host-like and evaluates `int("pw")`,
so a ValueError escapes. -/
theorem c5_parse_raises_valueerror :
    parse_proxy_line (some "bob:pw@site.com:8080") = .error () := by decide

/-- **C1** (code bug): with a single endpoint whose only attempt is
classified dead purely by its reason text (`"timeout"`, no `site_dead`
flag), the loop exits with an empty working list and no terminal result,
yet the final-fallback test of line 175 checks `result.get("site_dead")`
instead of the loop's classification, so the function returns
`("s", the timeout decline)` rather than
`(None, {... "All sites failed or removed" ...})` as the claim states. -/
theorem c1_fallback_not_taken :
    try_process_with_retries (.ok ["s"]) none oTimeout rOk =
      .ok ((some "s", some timeoutDict),
        [.attempt 0 "s" "s" timeoutDict, .removeCall "s" (.returned true)])
      ∧ (some "s", some timeoutDict) ≠
          ((none, some allFailedDict) : Option String × Option PyDict) :=
  ⟨by decide, by decide⟩

/-- **C7** (code bug): the claim says malformed dispatch results are
coerced and never propagate a raw exception, but only non-dict results
are coerced; a dict result whose `reason` is the integer `5` reaches
`(result.get("reason") or "").lower()` and raises AttributeError, which
escapes to the caller. -/
theorem c7_attributeerror_on_int_reason :
    try_process_with_retries (.ok ["s"]) none oReasonInt rOk = .error () := by decide

/-- **C2** (counterexample): on the first iteration the head of the
working list is `"a"`, but the dispatch call returns `("b", dead)` and
it is `"b"` — not the head — that is recorded for deferred removal and
removed from the working list, contradicting the claim that the head
endpoint is the one attempted and removed. -/
theorem c2_removed_site_not_head :
    try_process_with_retries (.ok ["a", "b"]) none oHeadMiss rOk =
      .ok ((some "a", some [("status", .pStr "APPROVED")]),
        [.attempt 0 "a" "b" [("site_dead", .pBool true)],
         .attempt 1 "a" "a" [("status", .pStr "APPROVED")],
         .removeCall "b" (.returned true)])
      ∧ ("b" : String) ≠ "a" :=
  ⟨by decide, by decide⟩

/-- **C8** (counterexample): when the dispatch oracle answers both
attempts with `("z", dead)`, the endpoint `"z"` — the only endpoint
classified dead in the session — is passed to the removal operation
twice, not "exactly once" as the claim states. -/
theorem c8_remove_called_twice :
    try_process_with_retries (.ok ["a", "b"]) none oZDead rOk =
      .ok ((some "z", some [("site_dead", .pBool true)]),
        [.attempt 0 "a" "z" [("site_dead", .pBool true)],
         .attempt 1 "a" "z" [("site_dead", .pBool true)],
         .removeCall "z" (.returned true), .removeCall "z" (.returned true)])
      ∧ List.filterMap removeSiteOf
          [.attempt 0 "a" "z" [("site_dead", .pBool true)],
           .attempt 1 "a" "z" [("site_dead", .pBool true)],
           .removeCall "z" (.returned true), .removeCall "z" (.returned true)]
          = ["z", "z"] :=
  ⟨by decide, by decide⟩

/-- **C6** (counterexample): `parse("site.com:00")` returns a target
with port `0`, violating the claimed invariant `1 ≤ port`. -/
theorem c6_port_zero :
    parse_proxy_line (some "site.com:00") = .ok (some ⟨"site.com", 0, none, none⟩)
      ∧ ¬(1 ≤ (0 : Int)) :=
  ⟨by decide, by decide⟩

/-! ## Helper lemmas: dicts and reasons -/

lemma dictGet_dictSet_same (es : PyDict) (k : String) (v : PyPrim) :
    dictGet (dictSet es k v) k = v := by
  induction es with
  | nil => simp [dictSet, dictGet]
  | cons kv rest ih =>
    obtain ⟨k', v'⟩ := kv
    by_cases h : k' = k
    · subst h; simp [dictSet, dictGet]
    · simp [dictSet, dictGet, h, ih]

lemma dictGet_dictSet_other (es : PyDict) (k k' : String) (v : PyPrim)
    (h : k' ≠ k) : dictGet (dictSet es k v) k' = dictGet es k' := by
  induction es with
  | nil => simp [dictSet, dictGet, Ne.symm h]
  | cons kv rest ih =>
    obtain ⟨k₀, v₀⟩ := kv
    by_cases h0 : k₀ = k
    · subst h0
      simp [dictSet, dictGet, Ne.symm h, h]
    · by_cases h1 : k₀ = k'
      · subst h1; simp [dictSet, dictGet, h0]
      · simp [dictSet, dictGet, h0, h1, ih]

lemma reasonOf_str {es : PyDict} {t : String}
    (h : dictGet es "reason" = .pStr t) : reasonOf es = .ok (pyLower t) := by
  unfold reasonOf
  rw [h]
  by_cases he : t = ""
  · subst he; simp [pyTruthy]
  · have : t.isEmpty = false := by
      rw [Bool.eq_false_iff]
      intro hx
      exact he ((String.isEmpty_iff t).mp hx)
    simp [pyTruthy, this]

/-! ## C3 — dead-endpoint classification (corrected) -/

lemma reasonOf_falsy {es : PyDict}
    (h : pyTruthy (dictGet es "reason") = false) : reasonOf es = .ok "" := by
  unfold reasonOf
  simp only [h, Bool.false_eq_true, if_false]
  rfl

lemma reasonOf_truthy_nonstr {es : PyDict}
    (hb : pyTruthy (dictGet es "reason") = true)
    (hns : ∀ s, dictGet es "reason" ≠ .pStr s) : reasonOf es = .error () := by
  unfold reasonOf
  simp only [hb, if_true]

/-- **C3** (counterexample): the dict result `{"reason": 5}` is seen by
the attempt loop unchanged (dicts are not coerced), it is not classified
dead, and yet it does not end the loop with itself as the stored result
either — the loop raises AttributeError on it.  So the claim's
dichotomy (dead-classified, or terminal-and-returned) is false for this
normalized dispatch result. -/
theorem c3_nonstring_reason_neither :
    normalizeResult (.dict [("reason", .pInt 5)]) = [("reason", .pInt 5)]
    ∧ deadFull [("reason", .pInt 5)] ≠ .ok true
    ∧ runLoop (fun _ => ("s", .dict [("reason", .pInt 5)])) 1 0
        ⟨["s"], [], none, none, []⟩ = .error () :=
  ⟨by decide, by decide, by decide⟩

/-- **C3** (amended): (1) for every normalized result dict whose
`reason` is a string or falsy (absent, `None`, `0`, `False` or `""` —
the code substitutes `""` for a falsy reason), the code's dead
classification holds exactly when the spec's predicate does on that
reason text: a truthy `site_dead` flag, or the text case-insensitively
contains "site response failed", both "request failed" and "stripe", or
"timeout"; (2) any result whose reason lookup succeeds and that is NOT
so classified ends the attempt loop immediately, with that result
stored as the loop's result; (3) the reason lookup succeeds exactly on
results whose `reason` is a string or falsy — on a truthy non-string
reason the loop instead raises AttributeError (the C7 bug), so such a
result is neither dead-classified nor terminal. -/
theorem c3_amended_classification_terminal :
    (∀ (es : PyDict) (t : String),
        (dictGet es "reason" = .pStr t
          ∨ (pyTruthy (dictGet es "reason") = false ∧ t = "")) →
        (deadFull es = .ok true ↔ specDead es t = true))
    ∧ (∀ (oracle : Nat → String × PyVal) (fuel i : Nat) (st : LoopSt)
        (hd : String) (tl : List String) (s : String) (raw : PyVal) (rs : String),
        st.sites = hd :: tl → oracle i = (s, raw) →
        reasonOf (normalizeResult raw) = .ok rs →
        deadCheck (normalizeResult raw) rs = false →
        runLoop oracle (fuel + 1) i st =
          .ok { st with siteUrl := some s, result := some (normalizeResult raw),
                        events := st.events ++ [.attempt i hd s (normalizeResult raw)] })
    ∧ (∀ es : PyDict, (∃ rs, reasonOf es = .ok rs) ↔
        ((∃ t, dictGet es "reason" = .pStr t)
          ∨ pyTruthy (dictGet es "reason") = false)) := by
  refine ⟨?_, ?_, ?_⟩
  · have key : ∀ (es : PyDict) (t : String), reasonOf es = .ok (pyLower t) →
        (deadFull es = .ok true ↔ specDead es t = true) := by
      intro es t hres
      have e1 : pyLower "Site Response Failed" = "site response failed" := by decide
      have e2 : pyLower "Request Failed" = "request failed" := by decide
      have e3 : pyLower "Stripe" = "stripe" := by decide
      have e4 : pyLower "Timeout" = "timeout" := by decide
      rw [deadFull, hres]
      simp [Except.map, specDead, ciContains, e1, e2, e3, e4, deadCheck]
    intro es t hyp
    rcases hyp with h | ⟨hf, ht⟩
    · exact key es t (reasonOf_str h)
    · subst ht
      exact key es "" (reasonOf_falsy hf)
  · intro oracle fuel i st hd tl s raw rs hsites horacle hreason hdead
    rw [runLoop, hsites, horacle]
    simp only [hreason]
    rw [if_neg (by simp [hdead])]
  · intro es
    constructor
    · rintro ⟨rs, hrs⟩
      by_cases hf : pyTruthy (dictGet es "reason") = true
      · by_cases hstr : ∃ s, dictGet es "reason" = .pStr s
        · exact Or.inl hstr
        · exfalso
          push_neg at hstr
          rw [reasonOf_truthy_nonstr hf hstr] at hrs
          exact Except.noConfusion hrs
      · exact Or.inr (Bool.eq_false_iff.mpr hf)
    · rintro (⟨t, ht⟩ | hf)
      · exact ⟨pyLower t, reasonOf_str ht⟩
      · exact ⟨"", reasonOf_falsy hf⟩

/-- Witness for C3's amended theorem: the classification equivalence at
a concrete mixed-case timeout reason and at a concrete absent reason,
the loop break at a concrete approved result, and the reason-coverage
equivalence at the integer-reason dict. -/
theorem c3_amended_classification_terminal_witness :
    (deadFull [("reason", .pStr "Connection TIMEOUT")] = .ok true
        ↔ specDead [("reason", .pStr "Connection TIMEOUT")] "Connection TIMEOUT" = true)
    ∧ (deadFull [("status", .pStr "DECLINED")] = .ok true
        ↔ specDead [("status", .pStr "DECLINED")] "" = true)
    ∧ runLoop oHeadMiss 2 1 ⟨["a"], ["b"], some "b", some [("site_dead", .pBool true)], []⟩ =
        .ok ⟨["a"], ["b"], some "a", some [("status", .pStr "APPROVED")],
          [.attempt 1 "a" "a" [("status", .pStr "APPROVED")]]⟩
    ∧ ((∃ rs, reasonOf [("reason", .pInt 5)] = .ok rs) ↔
        ((∃ t, dictGet [("reason", .pInt 5)] "reason" = .pStr t)
          ∨ pyTruthy (dictGet [("reason", .pInt 5)] "reason") = false)) :=
  ⟨c3_amended_classification_terminal.1 _ "Connection TIMEOUT" (Or.inl rfl),
   c3_amended_classification_terminal.1 _ "" (Or.inr ⟨rfl, rfl⟩),
   c3_amended_classification_terminal.2.1 oHeadMiss 1 1
     ⟨["a"], ["b"], some "b", some [("site_dead", .pBool true)], []⟩
     "a" [] "a" (.dict [("status", .pStr "APPROVED")]) "" rfl rfl (by decide) (by decide),
   c3_amended_classification_terminal.2.2 _⟩

/-! ## C2 amended — the dead step removes the dispatch-returned site -/

/-- **C2** (amended): on each iteration the head of the working list is
selected (it appears as the `head` field of the attempt event), but the
dispatch call returns its own endpoint id; when the attempt is
classified dead, the endpoint recorded for deferred removal and removed
(first occurrence, no-op if absent) from the working list is the
dispatch-returned endpoint `s`, not necessarily the head — the loop then
continues with the remaining budget. -/
theorem c2_amended_dead_step :
    ∀ (oracle : Nat → String × PyVal) (fuel i : Nat) (st : LoopSt)
      (hd : String) (tl : List String) (s : String) (raw : PyVal) (rs : String),
      st.sites = hd :: tl → oracle i = (s, raw) →
      reasonOf (normalizeResult raw) = .ok rs →
      deadCheck (normalizeResult raw) rs = true →
      runLoop oracle (fuel + 1) i st =
        runLoop oracle fuel (i + 1)
          { sites := st.sites.erase s
            deadSites := st.deadSites ++ [s]
            siteUrl := some s
            result := some (normalizeResult raw)
            events := st.events ++ [.attempt i hd s (normalizeResult raw)] } := by
  intro oracle fuel i st hd tl s raw rs hsites horacle hreason hdead
  rw [runLoop, hsites, horacle]
  simp only [hreason]
  rw [if_pos hdead]

/-- Witness for C2's amended theorem at the first step of the
`oHeadMiss` session: head `"a"`, dispatch-returned dead site `"b"`. -/
theorem c2_amended_dead_step_witness :
    runLoop oHeadMiss 2 0 ⟨["a", "b"], [], none, none, []⟩ =
      runLoop oHeadMiss 1 1
        ⟨["a"], ["b"], some "b", some [("site_dead", .pBool true)],
          [.attempt 0 "a" "b" [("site_dead", .pBool true)]]⟩ :=
  c2_amended_dead_step oHeadMiss 1 0 ⟨["a", "b"], [], none, none, []⟩
    "a" ["b"] "b" (.dict [("site_dead", .pBool true)]) "" rfl rfl (by decide) (by decide)

/-! ## C10 — in-place mutation of the caller's record (confirmed) -/

/-- **C10** (confirmed): when folder creation fails the call returns with
the caller's dict (and the store) completely unchanged; when it
succeeds, the caller's dict ends up with the `"timestamp"` key set to
the formatted clock — even when the subsequent read/write fails — and
every other key is untouched. -/
theorem c10_record_mutation :
    ∀ (env : CallEnv) (store : Store) (uid : String) (wid : Int) (live_data : PyDict),
      (env.mkdirOk = false →
        save_live_cc_to_json env store uid wid live_data = ([], live_data, store))
      ∧ (env.mkdirOk = true →
          (save_live_cc_to_json env store uid wid live_data).2.1
              = dictSet live_data "timestamp" (.pStr (fmtTs env.now))
            ∧ dictGet (save_live_cc_to_json env store uid wid live_data).2.1 "timestamp"
              = .pStr (fmtTs env.now)
            ∧ ∀ k, k ≠ "timestamp" →
                dictGet (save_live_cc_to_json env store uid wid live_data).2.1 k
                  = dictGet live_data k) := by
  intro env store uid wid live_data
  constructor
  · intro hmk
    simp [save_live_cc_to_json, hmk]
  · intro hmk
    have hrec : (save_live_cc_to_json env store uid wid live_data).2.1
        = dictSet live_data "timestamp" (.pStr (fmtTs env.now)) := by
      rw [save_live_cc_to_json]
      simp only [hmk, Bool.not_true]
      cases hsp : store (filePath uid wid) with
      | none => cases hw : env.writeOk <;> simp
      | some c => cases c <;> (try cases hw : env.writeOk) <;> simp
    refine ⟨hrec, ?_, ?_⟩
    · rw [hrec, dictGet_dictSet_same]
    · intro k hk
      rw [hrec, dictGet_dictSet_other _ _ _ _ hk]

/-- Witness for C10 at a concrete environment, store and record. -/
theorem c10_record_mutation_witness :
    save_live_cc_to_json ⟨false, true, ⟨2025, 1, 2, 3, 4, 5⟩⟩ emptyStore "u" 1
        [("card", .pStr "x")] = ([], [("card", .pStr "x")], emptyStore)
    ∧ (save_live_cc_to_json ⟨true, false, ⟨2025, 1, 2, 3, 4, 5⟩⟩ emptyStore "u" 1
        [("card", .pStr "x")]).2.1
      = dictSet [("card", .pStr "x")] "timestamp"
          (.pStr (fmtTs ⟨2025, 1, 2, 3, 4, 5⟩)) :=
  ⟨(c10_record_mutation ⟨false, true, ⟨2025, 1, 2, 3, 4, 5⟩⟩ emptyStore "u" 1
      [("card", .pStr "x")]).1 rfl,
   ((c10_record_mutation ⟨true, false, ⟨2025, 1, 2, 3, 4, 5⟩⟩ emptyStore "u" 1
      [("card", .pStr "x")]).2 rfl).1⟩

/-! ## Helper lemmas: loop traces and cleanup events -/

lemma removeEvents_not_attempt (removeO : Nat → RemoveOutcome) :
    ∀ (l : List String) (k : Nat), ∀ e ∈ removeEvents removeO k l, isAttemptEv e = false := by
  intro l
  induction l with
  | nil => intro k e he; simp [removeEvents] at he
  | cons s rest ih =>
    intro k e he
    rw [removeEvents] at he
    rcases List.mem_cons.mp he with h | h
    · subst h; rfl
    · exact ih (k + 1) e h

lemma removeEvents_sites (removeO : Nat → RemoveOutcome) :
    ∀ (l : List String) (k : Nat),
      (removeEvents removeO k l).filterMap removeSiteOf = l := by
  intro l
  induction l with
  | nil => intro k; rfl
  | cons s rest ih => intro k; simp [removeEvents, removeSiteOf, ih]

lemma runLoop_step_error {oracle : Nat → String × PyVal} {fuel i : Nat} {st : LoopSt}
    {hd : String} {tl : List String} {s : String} {raw : PyVal} {e : Unit}
    (hsites : st.sites = hd :: tl) (horacle : oracle i = (s, raw))
    (hreason : reasonOf (normalizeResult raw) = .error e) :
    runLoop oracle (fuel + 1) i st = .error e := by
  rw [runLoop, hsites, horacle]
  simp only [hreason]

lemma runLoop_step_dead {oracle : Nat → String × PyVal} {fuel i : Nat} {st : LoopSt}
    {hd : String} {tl : List String} {s : String} {raw : PyVal} {rs : String}
    (hsites : st.sites = hd :: tl) (horacle : oracle i = (s, raw))
    (hreason : reasonOf (normalizeResult raw) = .ok rs)
    (hdead : deadCheck (normalizeResult raw) rs = true) :
    runLoop oracle (fuel + 1) i st =
      runLoop oracle fuel (i + 1)
        { sites := st.sites.erase s
          deadSites := st.deadSites ++ [s]
          siteUrl := some s
          result := some (normalizeResult raw)
          events := st.events ++ [.attempt i hd s (normalizeResult raw)] } := by
  rw [runLoop, hsites, horacle]
  simp only [hreason]
  rw [if_pos hdead]

lemma runLoop_step_done {oracle : Nat → String × PyVal} {fuel i : Nat} {st : LoopSt}
    {hd : String} {tl : List String} {s : String} {raw : PyVal} {rs : String}
    (hsites : st.sites = hd :: tl) (horacle : oracle i = (s, raw))
    (hreason : reasonOf (normalizeResult raw) = .ok rs)
    (hdead : deadCheck (normalizeResult raw) rs = false) :
    runLoop oracle (fuel + 1) i st =
      .ok { st with siteUrl := some s, result := some (normalizeResult raw),
                    events := st.events ++ [.attempt i hd s (normalizeResult raw)] } := by
  rw [runLoop, hsites, horacle]
  simp only [hreason]
  rw [if_neg (by simp [hdead])]

/-- The attempt loop only appends attempt events, and appends exactly the
dispatch-returned site of every dead-classified attempt to `deadSites`. -/
lemma runLoop_trace (oracle : Nat → String × PyVal) :
    ∀ (fuel i : Nat) (st st' : LoopSt),
      runLoop oracle fuel i st = .ok st' →
      ∃ new : List Event,
        st'.events = st.events ++ new
        ∧ (∀ e ∈ new, isAttemptEv e = true)
        ∧ st'.deadSites = st.deadSites ++ new.filterMap deadSiteOf := by
  intro fuel
  induction fuel with
  | zero =>
    intro i st st' h
    rw [runLoop] at h
    cases h
    exact ⟨[], by simp⟩
  | succ fuel ih =>
    intro i st st' h
    cases hsites : st.sites with
    | nil =>
      rw [runLoop, hsites] at h
      cases h
      exact ⟨[], by simp⟩
    | cons hd tl =>
      cases horacle : oracle i with
      | mk s raw =>
        cases hreason : reasonOf (normalizeResult raw) with
        | error e => rw [runLoop_step_error hsites horacle hreason] at h; cases h
        | ok rs =>
          by_cases hdead : deadCheck (normalizeResult raw) rs = true
          · rw [runLoop_step_dead hsites horacle hreason hdead] at h
            obtain ⟨new1, he1, ha1, hd1⟩ := ih (i + 1) _ st' h
            refine ⟨Event.attempt i hd s (normalizeResult raw) :: new1, ?_, ?_, ?_⟩
            · simpa using he1
            · intro e he
              rcases List.mem_cons.mp he with h' | h'
              · subst h'; rfl
              · exact ha1 e h'
            · have hds : deadSiteOf (Event.attempt i hd s (normalizeResult raw)) = some s := by
                simp [deadSiteOf, deadFull, hreason, Except.map, hdead]
              simp only [List.filterMap_cons, hds]
              simpa using hd1
          · rw [runLoop_step_done hsites horacle hreason
              (Bool.eq_false_iff.mpr hdead)] at h
            cases h
            refine ⟨[Event.attempt i hd s (normalizeResult raw)], by simp, ?_, ?_⟩
            · intro e he
              rcases List.mem_cons.mp he with h' | h'
              · subst h'; rfl
              · simp at h'
            · have hds : deadSiteOf (Event.attempt i hd s (normalizeResult raw)) = none := by
                simp only [deadSiteOf, deadFull, hreason, Except.map]
                simp [hdead]
              simp [hds]

/-- Any event list of the shape `attempts ++ removals` filters back to
its attempt half. -/
lemma filter_attempt_split (atts rems : List Event)
    (ha : ∀ e ∈ atts, isAttemptEv e = true) (hr : ∀ e ∈ rems, isAttemptEv e = false) :
    (atts ++ rems).filter isAttemptEv = atts := by
  rw [List.filter_append]
  rw [List.filter_eq_self.mpr ha, List.filter_eq_nil_iff.mpr (by intro e he; simp [hr e he])]
  simp

/-! ## C8 amended — batched cleanup after the loop -/

/-- **C8** (amended): once the attempt loop exits normally, the removal
operation is attempted once per dead-classified attempt — with the
dispatch-returned endpoint of that attempt — and all removal events come
after all attempt events; when the dead-classified attempts returned
pairwise-distinct endpoints (as when dispatch always answers with the
current head), each dead endpoint is passed to removal exactly once.
Removal outcomes, including raised exceptions, never change the returned
`(site, result)` pair. -/
theorem c8_amended_batched_cleanup :
    ∀ (loadRes : Except Unit (List String)) (maxTries : Option Int)
      (oracle : Nat → String × PyVal) (removeO removeO' : Nat → RemoveOutcome),
      ((try_process_with_retries loadRes maxTries oracle removeO).map Prod.fst
          = (try_process_with_retries loadRes maxTries oracle removeO').map Prod.fst)
      ∧ (∀ pr evs, try_process_with_retries loadRes maxTries oracle removeO = .ok (pr, evs) →
          evs = evs.filter isAttemptEv
              ++ removeEvents removeO 0 ((evs.filter isAttemptEv).filterMap deadSiteOf)
            ∧ (((evs.filter isAttemptEv).filterMap deadSiteOf).Nodup →
                ∀ s ∈ (evs.filter isAttemptEv).filterMap deadSiteOf,
                  ((evs.filter isAttemptEv).filterMap deadSiteOf).count s = 1)) := by
  intro loadRes maxTries oracle removeO removeO'
  constructor
  · unfold try_process_with_retries
    cases loadRes with
    | error e => simp
    | ok l =>
      simp only
      by_cases hl : l.isEmpty
      · simp [hl]
      · simp only [hl, Bool.false_eq_true, if_false, if_neg]
        cases hrun : runLoop oracle
            (Int.toNat (match maxTries with
              | none => (l.length : Int)
              | some m => if m = 0 then (l.length : Int) else m)) 0
            ⟨l, [], none, none, []⟩ with
        | error e => simp
        | ok st =>
          by_cases hf : finalFallback st.sites st.result = true <;>
            simp [hf, Except.map]
  · intro pr evs
    unfold try_process_with_retries
    cases loadRes with
    | error e =>
      intro h
      simp only [List.isEmpty_nil, if_true, if_pos, Except.ok.injEq,
        Prod.mk.injEq] at h
      obtain ⟨h1, h2⟩ := h
      rw [← h2]
      simp [removeEvents]
    | ok l =>
      simp only
      by_cases hl : l.isEmpty
      · simp only [hl, if_true, if_pos]
        intro h
        simp only [Except.ok.injEq, Prod.mk.injEq] at h
        obtain ⟨h1, h2⟩ := h
        rw [← h2]
        simp [removeEvents]
      · simp only [hl, Bool.false_eq_true, if_false, if_neg]
        cases hrun : runLoop oracle
            (Int.toNat (match maxTries with
              | none => (l.length : Int)
              | some m => if m = 0 then (l.length : Int) else m)) 0
            ⟨l, [], none, none, []⟩ with
        | error e => intro h; cases h
        | ok st =>
          obtain ⟨new, he, ha, hd⟩ := runLoop_trace oracle _ 0 _ st hrun
          simp only at he hd
          rw [List.nil_append] at he
          rw [List.nil_append] at hd
          intro h
          have hevs : evs = st.events ++ removeEvents removeO 0 st.deadSites := by
            by_cases hf : finalFallback st.sites st.result = true
            · simp only [hf, if_true, Except.ok.injEq, Prod.mk.injEq,
                eq_self_iff_true] at h
              exact h.2.symm
            · simp only [hf, Bool.false_eq_true, if_false, Except.ok.injEq,
                Prod.mk.injEq] at h
              exact h.2.symm
          have hfilter : evs.filter isAttemptEv = new := by
            rw [hevs, he]
            exact filter_attempt_split _ _ ha (removeEvents_not_attempt removeO _ 0)
          constructor
          · rw [hfilter, ← hd, ← he, ← hevs]
          · rw [hfilter, ← hd]
            intro hnd s hs
            have h1 : st.deadSites.count s ≤ 1 :=
              List.nodup_iff_count_le_one.mp hnd s
            have h2 : 0 < st.deadSites.count s := List.count_pos_iff.mpr hs
            omega

/-- Witness for C8's amended theorem: the returned pair of the
`oHeadMiss` session does not depend on whether removals succeed or
raise, and the event list decomposes into attempts followed by one
removal per dead-classified attempt. -/
theorem c8_amended_batched_cleanup_witness :
    ((try_process_with_retries (.ok ["a", "b"]) none oHeadMiss rOk).map Prod.fst
        = (try_process_with_retries (.ok ["a", "b"]) none oHeadMiss rRaise).map Prod.fst)
    ∧ ([.attempt 0 "a" "b" [("site_dead", .pBool true)],
        .attempt 1 "a" "a" [("status", .pStr "APPROVED")],
        .removeCall "b" (.returned true)] : List Event)
        = ([.attempt 0 "a" "b" [("site_dead", .pBool true)],
            .attempt 1 "a" "a" [("status", .pStr "APPROVED")],
            .removeCall "b" (.returned true)] : List Event).filter isAttemptEv
          ++ removeEvents rOk 0
            ((([.attempt 0 "a" "b" [("site_dead", .pBool true)],
                .attempt 1 "a" "a" [("status", .pStr "APPROVED")],
                .removeCall "b" (.returned true)] : List Event).filter
                  isAttemptEv).filterMap deadSiteOf) :=
  ⟨(c8_amended_batched_cleanup (.ok ["a", "b"]) none oHeadMiss rOk rRaise).1,
   ((c8_amended_batched_cleanup (.ok ["a", "b"]) none oHeadMiss rOk rRaise).2
      (some "a", some [("status", .pStr "APPROVED")]) _ (by decide)).1⟩

/-! ## Helper lemmas: the append log -/

lemma str_ne_tmp (s : String) : s ≠ s ++ ".tmp" := by
  intro h
  have hlen := congrArg String.length h
  rw [String.length_append] at hlen
  have h4 : (".tmp" : String).length = 4 := rfl
  omega

lemma fmtTs_ne_empty (t : Clock) : fmtTs t ≠ "" := by
  intro h
  have hlen := congrArg String.length h
  simp only [fmtTs, String.length_append] at hlen
  have h1 : ("-" : String).length = 1 := rfl
  have h2 : (" " : String).length = 1 := rfl
  have h3 : (":" : String).length = 1 := rfl
  have h0 : ("" : String).length = 0 := rfl
  omega

/-- One completed, fully successful call on a store whose target file is
absent (with `l = []`) or holds the array `l` appends exactly the
timestamped record. -/
lemma save_lookup_step (env : CallEnv) (store : Store) (uid : String) (wid : Int)
    (r : PyDict) (l : List PyDict)
    (hmk : env.mkdirOk = true) (hw : env.writeOk = true)
    (hcur : store (filePath uid wid) = none ∧ l = []
      ∨ store (filePath uid wid) = some (.jarr l)) :
    (save_live_cc_to_json env store uid wid r).2.2 (filePath uid wid)
      = some (.jarr (l ++ [dictSet r "timestamp" (.pStr (fmtTs env.now))])) := by
  rw [save_live_cc_to_json]
  rcases hcur with ⟨hc, hl⟩ | hc
  · subst hl
    simp [hmk, hw, hc, applyOps, applyOp]
  · simp [hmk, hw, hc, applyOps, applyOp]

/-- Any intermediate state of one fully successful call shows the target
file either with its prior content or with the final full array: the
only step that touches the target is the atomic replace. -/
lemma save_prefix_window (env : CallEnv) (store : Store) (uid : String) (wid : Int)
    (r : PyDict) (hmk : env.mkdirOk = true) (hw : env.writeOk = true) :
    ∀ j, applyOps (((save_live_cc_to_json env store uid wid r).1).take j) store
            (filePath uid wid)
          = store (filePath uid wid)
      ∨ applyOps (((save_live_cc_to_json env store uid wid r).1).take j) store
            (filePath uid wid)
          = (save_live_cc_to_json env store uid wid r).2.2 (filePath uid wid) := by
  intro j
  cases hc : store (filePath uid wid) with
  | none =>
    have hops : save_live_cc_to_json env store uid wid r
        = ([FSOp.fswrite (filePath uid wid ++ ".tmp")
              (.jarr [dictSet r "timestamp" (.pStr (fmtTs env.now))]),
            FSOp.fsreplace (filePath uid wid ++ ".tmp") (filePath uid wid)],
           dictSet r "timestamp" (.pStr (fmtTs env.now)),
           applyOps [FSOp.fswrite (filePath uid wid ++ ".tmp")
              (.jarr [dictSet r "timestamp" (.pStr (fmtTs env.now))]),
            FSOp.fsreplace (filePath uid wid ++ ".tmp") (filePath uid wid)] store) := by
      rw [save_live_cc_to_json]
      simp [hmk, hw, hc]
    rw [hops]
    match j with
    | 0 => exact Or.inl hc
    | 1 =>
      left
      simp only [List.take_succ_cons, List.take_nil, applyOps, List.foldl, applyOp]
      rw [if_neg (str_ne_tmp (filePath uid wid))]
      exact hc
    | (j + 2) =>
      right
      rw [List.take_of_length_le (by simp)]
  | some c =>
    cases c with
    | jother =>
      have hops : save_live_cc_to_json env store uid wid r
          = ([], dictSet r "timestamp" (.pStr (fmtTs env.now)), store) := by
        rw [save_live_cc_to_json]
        simp [hmk, hw, hc]
      rw [hops]
      left
      simp only [List.take_nil]
      exact hc
    | jarr items =>
      have hops : save_live_cc_to_json env store uid wid r
          = ([FSOp.fswrite (filePath uid wid ++ ".tmp")
                (.jarr (items ++ [dictSet r "timestamp" (.pStr (fmtTs env.now))])),
              FSOp.fsreplace (filePath uid wid ++ ".tmp") (filePath uid wid)],
             dictSet r "timestamp" (.pStr (fmtTs env.now)),
             applyOps [FSOp.fswrite (filePath uid wid ++ ".tmp")
                (.jarr (items ++ [dictSet r "timestamp" (.pStr (fmtTs env.now))])),
              FSOp.fsreplace (filePath uid wid ++ ".tmp") (filePath uid wid)] store) := by
        rw [save_live_cc_to_json]
        simp [hmk, hw, hc]
      rw [hops]
      match j with
      | 0 => exact Or.inl hc
      | 1 =>
        left
        simp only [List.take_succ_cons, List.take_nil, applyOps, List.foldl, applyOp]
        rw [if_neg (str_ne_tmp (filePath uid wid))]
        exact hc
      | (j + 2) =>
        right
        rw [List.take_of_length_le (by simp)]
    | invalid =>
      have hops : save_live_cc_to_json env store uid wid r
          = ([FSOp.fswrite (filePath uid wid ++ ".tmp")
                (.jarr [dictSet r "timestamp" (.pStr (fmtTs env.now))]),
              FSOp.fsreplace (filePath uid wid ++ ".tmp") (filePath uid wid)],
             dictSet r "timestamp" (.pStr (fmtTs env.now)),
             applyOps [FSOp.fswrite (filePath uid wid ++ ".tmp")
                (.jarr [dictSet r "timestamp" (.pStr (fmtTs env.now))]),
              FSOp.fsreplace (filePath uid wid ++ ".tmp") (filePath uid wid)] store) := by
        rw [save_live_cc_to_json]
        simp [hmk, hw, hc]
      rw [hops]
      match j with
      | 0 => exact Or.inl hc
      | 1 =>
        left
        simp only [List.take_succ_cons, List.take_nil, applyOps, List.foldl, applyOp]
        rw [if_neg (str_ne_tmp (filePath uid wid))]
        exact hc
      | (j + 2) =>
        right
        rw [List.take_of_length_le (by simp)]

lemma savedList_succ (envs : Nat → CallEnv) (recs : Nat → PyDict) (n : Nat) :
    savedList envs recs (n + 1)
      = savedList envs recs n
        ++ [dictSet (recs n) "timestamp" (.pStr (fmtTs (envs n).now))] := by
  simp [savedList, List.range_succ]

lemma iterSave_lookup (uid : String) (wid : Int) (envs : Nat → CallEnv)
    (recs : Nat → PyDict) :
    ∀ n, (∀ i, i < n → (envs i).mkdirOk = true ∧ (envs i).writeOk = true) →
      iterSave uid wid envs recs n (filePath uid wid)
        = if n = 0 then none else some (.jarr (savedList envs recs n)) := by
  intro n
  induction n with
  | zero => intro _; rfl
  | succ n ih =>
    intro hok
    have hprev := ih (fun i hi => hok i (Nat.lt_succ_of_lt hi))
    rw [iterSave]
    rw [save_lookup_step (envs n) _ uid wid (recs n) (savedList envs recs n)
      (hok n (Nat.lt_succ_self n)).1 (hok n (Nat.lt_succ_self n)).2 ?_]
    · rw [← savedList_succ]
      simp
    · by_cases hn : n = 0
      · left
        subst hn
        exact ⟨hprev, rfl⟩
      · right
        rw [hprev, if_neg hn]

/-! ## C9 — N sequential appends (confirmed) -/

/-- **C9** (confirmed): starting from no file, `n` fully successful
sequential calls for the same `(owner, worker)` leave the target file
holding exactly the `n` records in call order, each carrying a non-empty
timestamp string; and within any one successful call, every prefix of
its filesystem steps shows the target file either with its prior content
or with the complete new array (the full array goes to a `.tmp` sibling,
which atomically replaces the target), so a reader never observes a
partial file. -/
theorem c9_sequential_appends :
    ∀ (uid : String) (wid : Int) (envs : Nat → CallEnv) (recs : Nat → PyDict) (n : Nat),
      (∀ i, i < n → (envs i).mkdirOk = true ∧ (envs i).writeOk = true) →
      (iterSave uid wid envs recs n (filePath uid wid)
          = if n = 0 then none else some (.jarr (savedList envs recs n)))
      ∧ (savedList envs recs n).length = n
      ∧ (∀ i, i < n →
          dictGet (dictSet (recs i) "timestamp" (.pStr (fmtTs (envs i).now))) "timestamp"
              = .pStr (fmtTs (envs i).now)
            ∧ fmtTs (envs i).now ≠ "")
      ∧ (∀ (store : Store) (env : CallEnv) (r : PyDict),
          env.mkdirOk = true → env.writeOk = true →
          ∀ j, applyOps (((save_live_cc_to_json env store uid wid r).1).take j) store
                  (filePath uid wid)
                = store (filePath uid wid)
            ∨ applyOps (((save_live_cc_to_json env store uid wid r).1).take j) store
                  (filePath uid wid)
                = (save_live_cc_to_json env store uid wid r).2.2 (filePath uid wid)) := by
  intro uid wid envs recs n hok
  refine ⟨iterSave_lookup uid wid envs recs n hok, by simp [savedList], ?_, ?_⟩
  · intro i _
    exact ⟨dictGet_dictSet_same _ _ _, fmtTs_ne_empty _⟩
  · intro store env r hmk hw
    exact save_prefix_window env store uid wid r hmk hw

/-- Witness for C9 at two concrete calls from the empty store. -/
theorem c9_sequential_appends_witness :
    iterSave "u" 1 envC recsC 2 (filePath "u" 1)
      = (if (2 : Nat) = 0 then none else some (.jarr (savedList envC recsC 2))) :=
  (c9_sequential_appends "u" 1 envC recsC 2 (by intro i _; exact ⟨rfl, rfl⟩)).1

/-! ## Helper lemmas: character classes and list munching -/

lemma word_not_colon {c : Char} (h : isWordC c = true) : c ≠ ':' := by
  intro he; subst he; exact absurd h (by decide)

lemma word_not_at {c : Char} (h : isWordC c = true) : c ≠ '@' := by
  intro he; subst he; exact absurd h (by decide)

lemma word_plain {c : Char} (h : isWordC c = true) : isPlainC c = true := by
  simp [isPlainC, word_not_colon h, word_not_at h]

lemma digit_word {c : Char} (h : c.isDigit = true) : isWordC c = true := by
  simp [isWordC, Char.isAlphanum, h]

lemma digit_plain {c : Char} (h : c.isDigit = true) : isPlainC c = true :=
  word_plain (digit_word h)

lemma word_toNat_bounds {c : Char} (h : isWordC c = true) :
    45 ≤ c.toNat ∧ c.toNat ≤ 122 := by
  simp only [isWordC, Bool.or_eq_true, beq_iff_eq] at h
  rcases h with ((ha | h1) | h2) | h3
  · simp only [Char.isAlphanum, Char.isAlpha, Char.isUpper, Char.isLower,
      Char.isDigit, Bool.or_eq_true, Bool.and_eq_true, decide_eq_true_eq,
      ge_iff_le] at ha
    rcases ha with (⟨u1, u2⟩ | ⟨l1, l2⟩) | ⟨d1, d2⟩
    · have b1 : 65 ≤ c.val.toNat := u1
      have b2 : c.val.toNat ≤ 90 := u2
      simp only [Char.toNat]
      omega
    · have b1 : 97 ≤ c.val.toNat := l1
      have b2 : c.val.toNat ≤ 122 := l2
      simp only [Char.toNat]
      omega
    · have b1 : 48 ≤ c.val.toNat := d1
      have b2 : c.val.toNat ≤ 57 := d2
      simp only [Char.toNat]
      omega
  · subst h1; decide
  · subst h2; decide
  · subst h3; decide

lemma word_not_ws {c : Char} (h : isWordC c = true) : isWs c = false := by
  obtain ⟨h1, h2⟩ := word_toNat_bounds h
  rw [isWs, decide_eq_false_iff_not]
  omega

lemma digit_not_ws {c : Char} (h : c.isDigit = true) : isWs c = false :=
  word_not_ws (digit_word h)

lemma dropWhile_head_false {p : Char → Bool} :
    ∀ (cs : List Char) {c rest}, cs.dropWhile p = c :: rest → p c = false := by
  intro cs
  induction cs with
  | nil => intro c rest h; simp at h
  | cons a tl ih =>
    intro c rest h
    rw [List.dropWhile_cons] at h
    by_cases ha : p a = true
    · rw [if_pos ha] at h
      exact ih h
    · rw [if_neg ha] at h
      cases h
      exact Bool.eq_false_iff.mpr ha

lemma takeWhile_append_stop {p : Char → Bool} {d : Char} (ds : List Char)
    (hd : p d = false) :
    ∀ (xs : List Char), (∀ c ∈ xs, p c = true) →
      (xs ++ d :: ds).takeWhile p = xs := by
  intro xs
  induction xs with
  | nil => intro _; simp [List.takeWhile_cons, hd]
  | cons a tl ih =>
    intro hall
    rw [List.cons_append, List.takeWhile_cons, if_pos (hall a (List.mem_cons_self a tl))]
    rw [ih fun c hc => hall c (List.mem_cons_of_mem a hc)]

lemma dropWhile_append_stop {p : Char → Bool} {d : Char} (ds : List Char)
    (hd : p d = false) :
    ∀ (xs : List Char), (∀ c ∈ xs, p c = true) →
      (xs ++ d :: ds).dropWhile p = d :: ds := by
  intro xs
  induction xs with
  | nil => intro _; simp [List.dropWhile_cons, hd]
  | cons a tl ih =>
    intro hall
    rw [List.cons_append, List.dropWhile_cons, if_pos (hall a (List.mem_cons_self a tl))]
    exact ih fun c hc => hall c (List.mem_cons_of_mem a hc)

lemma dropWhile_eq_self_of_all {p : Char → Bool} (cs : List Char)
    (h : ∀ c ∈ cs, p c = false) : cs.dropWhile p = cs := by
  cases cs with
  | nil => rfl
  | cons a tl =>
    rw [List.dropWhile_cons, if_neg (by simp [h a (List.mem_cons_self a tl)])]

lemma pyStrip_of_noWs (cs : List Char) (h : ∀ c ∈ cs, isWs c = false) :
    pyStrip cs = cs := by
  rw [pyStrip, dropWhile_eq_self_of_all cs h,
    dropWhile_eq_self_of_all cs.reverse (fun c hc => h c (List.mem_reverse.mp hc)),
    List.reverse_reverse]

lemma pyNormalize_of_noWs (cs : List Char) (h : ∀ c ∈ cs, isWs c = false) :
    pyNormalize cs = cs := by
  rw [pyNormalize, pyStrip_of_noWs cs h]
  apply List.filter_eq_self.mpr
  intro c hc
  have : c ≠ ' ' := by
    intro he; subst he; exact absurd (h ' ' hc) (by decide)
  simp [this]

lemma pyInt_digits (p : List Char) (hne : p ≠ [])
    (hd : ∀ c ∈ p, c.isDigit = true) : pyInt p = .ok (digitsVal p) := by
  cases p with
  | nil => exact absurd rfl hne
  | cons c tl =>
    have hc := hd c (List.mem_cons_self c tl)
    have hplus : c ≠ '+' := by
      intro he; subst he; exact absurd hc (by decide)
    have hminus : c ≠ '-' := by
      intro he; subst he; exact absurd hc (by decide)
    rw [pyInt]
    simp only [pyStrip_of_noWs _ (fun x hx => digit_not_ws (hd x hx))]
    split
    · next ds heq =>
      injection heq with h1 h2
      exact absurd h1 hplus
    · next ds heq =>
      injection heq with h1 h2
      exact absurd h1 hminus
    · next =>
      rw [if_pos]
      simp [List.all_eq_true.mpr hd]

/-! ## Pattern evaluation on token-decomposed lines -/

lemma isEmpty_false_of_ne {l : List Char} (h : l ≠ []) : l.isEmpty = false := by
  cases l with
  | nil => exact absurd rfl h
  | cons a tl => rfl

lemma plain_ne_at {c : Char} (h : isPlainC c = true) : c ≠ '@' := by
  intro he; subst he; exact absurd h (by decide)

/-- Pattern 5 succeeds on `a:b` when the tokens fit its grammar. -/
lemma pat5_eval (a b : List Char)
    (ha : a ≠ []) (haw : ∀ x ∈ a, isWordC x = true)
    (hb : b ≠ []) (hbd : ∀ x ∈ b, x.isDigit = true)
    (hb2 : 2 ≤ b.length) (hb6 : b.length ≤ 6) :
    pat5 (a ++ ':' :: b) = some (a, b) := by
  rw [pat5]
  rw [takeWhile_append_stop _ (by decide) a haw,
    dropWhile_append_stop _ (by decide) a haw]
  simp only [isEmpty_false_of_ne ha, Bool.false_eq_true, if_false,
    isEmpty_false_of_ne hb, Bool.not_false, List.all_eq_true.mpr hbd,
    hb2, hb6, decide_True, Bool.and_self, Bool.true_and, if_true]

/-! ## Pattern failure lemmas -/

lemma pat1_none_head2 (cs r2 : List Char)
    (hd1 : cs.dropWhile isWordC = ':' :: r2)
    (h : ∀ r, r2.dropWhile Char.isDigit ≠ ':' :: r) : pat1 cs = none := by
  rw [pat1, hd1]
  by_cases hge : (cs.takeWhile isWordC).isEmpty
  · simp only [hge, if_true]
  · simp only [hge, Bool.false_eq_true, if_false]

lemma pat1_none_head3 (cs r2 r3 : List Char)
    (hd1 : cs.dropWhile isWordC = ':' :: r2)
    (hd2 : r2.dropWhile Char.isDigit = ':' :: r3)
    (h : ∀ r, r3.dropWhile isPlainC ≠ ':' :: r) : pat1 cs = none := by
  rw [pat1, hd1]
  by_cases hge : (cs.takeWhile isWordC).isEmpty
  · simp only [hge, if_true]
  · simp only [hge, Bool.false_eq_true, if_false, hd2]
    by_cases hlen : (2 ≤ (r2.takeWhile Char.isDigit).length
        && (r2.takeWhile Char.isDigit).length ≤ 6) = true
    · simp only [hlen, if_true]
    · simp only [Bool.eq_false_iff.mpr hlen, Bool.false_eq_true, if_false]

lemma pat2_none_head2 (cs r2 : List Char)
    (hd1 : cs.dropWhile isPlainC = ':' :: r2)
    (h : ∀ r, r2.dropWhile isPlainC ≠ '@' :: r) : pat2 cs = none := by
  rw [pat2, hd1]
  by_cases hge : (cs.takeWhile isPlainC).isEmpty
  · simp only [hge, if_true]
  · simp only [hge, Bool.false_eq_true, if_false]

lemma pat3_none_head2 (cs r2 : List Char)
    (hd1 : cs.dropWhile isPlainC = ':' :: r2)
    (h : ∀ r, r2.dropWhile isPlainC ≠ ':' :: r) : pat3 cs = none := by
  rw [pat3, hd1]
  by_cases hge : (cs.takeWhile isPlainC).isEmpty
  · simp only [hge, if_true]
  · simp only [hge, Bool.false_eq_true, if_false]

lemma pat4_none_head2 (cs r2 : List Char)
    (hd1 : cs.dropWhile isWordC = ':' :: r2)
    (h : ∀ r, r2.dropWhile Char.isDigit ≠ '@' :: r) : pat4 cs = none := by
  rw [pat4, hd1]
  by_cases hge : (cs.takeWhile isWordC).isEmpty
  · simp only [hge, if_true]
  · simp only [hge, Bool.false_eq_true, if_false]

lemma pat5_none_tail (cs r2 : List Char)
    (hd1 : cs.dropWhile isWordC = ':' :: r2)
    (hfail : (!r2.isEmpty && r2.all Char.isDigit
        && 2 ≤ r2.length && r2.length ≤ 6) = false) : pat5 cs = none := by
  rw [pat5, hd1]
  by_cases hge : (cs.takeWhile isWordC).isEmpty
  · simp only [hge, if_true]
  · simp only [hge, Bool.false_eq_true, if_false, hfail]

/-! ## Assembling the parser chain -/

lemma noWs_append {xs ys : List Char} (hx : ∀ c ∈ xs, isWs c = false)
    (hy : ∀ c ∈ ys, isWs c = false) : ∀ c ∈ xs ++ ys, isWs c = false := by
  intro c hc
  rcases List.mem_append.mp hc with h | h
  · exact hx c h
  · exact hy c h

lemma noWs_cons {d : Char} {xs : List Char} (hd : isWs d = false)
    (hx : ∀ c ∈ xs, isWs c = false) : ∀ c ∈ d :: xs, isWs c = false := by
  intro c hc
  rcases List.mem_cons.mp hc with rfl | h
  · exact hd
  · exact hx c h

lemma parse_line_core (line : List Char) (hne : line ≠ [])
    (hnws : ∀ c ∈ line, isWs c = false) :
    parse_proxy_line (some (String.mk line)) = parseCore line := by
  rw [parse_proxy_line]
  simp only [isEmpty_false_of_ne hne, Bool.false_eq_true, if_false,
    pyNormalize_of_noWs line hnws]

/-- Shape `host:port` (no credentials). -/
lemma shape5_correct (h p : List Char)
    (hh : h ≠ []) (hhw : ∀ x ∈ h, isWordC x = true)
    (hpd : ∀ x ∈ p, x.isDigit = true) (hp2 : 2 ≤ p.length) (hp6 : p.length ≤ 6) :
    parseCore (h ++ ':' :: p)
      = .ok (some ⟨String.mk h, (digitsVal p : Int), none, none⟩) := by
  have hpne : p ≠ [] := by
    intro h0; rw [h0] at hp2; simp at hp2
  have hhpl : ∀ x ∈ h, isPlainC x = true := fun x hx => word_plain (hhw x hx)
  have hdw_word : (h ++ ':' :: p).dropWhile isWordC = ':' :: p :=
    dropWhile_append_stop _ (by decide) h hhw
  have hdw_plain : (h ++ ':' :: p).dropWhile isPlainC = ':' :: p :=
    dropWhile_append_stop _ (by decide) h hhpl
  have hp_digit_nil : p.dropWhile Char.isDigit = [] :=
    List.dropWhile_eq_nil_iff.mpr hpd
  have hp_plain_nil : p.dropWhile isPlainC = [] :=
    List.dropWhile_eq_nil_iff.mpr fun x hx => digit_plain (hpd x hx)
  have h1 : pat1 (h ++ ':' :: p) = none := by
    apply pat1_none_head2 _ _ hdw_word
    intro r heq
    rw [hp_digit_nil] at heq
    exact List.noConfusion heq
  have h2 : pat2 (h ++ ':' :: p) = none := by
    apply pat2_none_head2 _ _ hdw_plain
    intro r heq
    rw [hp_plain_nil] at heq
    exact List.noConfusion heq
  have h3 : pat3 (h ++ ':' :: p) = none := by
    apply pat3_none_head2 _ _ hdw_plain
    intro r heq
    rw [hp_plain_nil] at heq
    exact List.noConfusion heq
  have h4 : pat4 (h ++ ':' :: p) = none := by
    apply pat4_none_head2 _ _ hdw_word
    intro r heq
    rw [hp_digit_nil] at heq
    exact List.noConfusion heq
  have h5 := pat5_eval h p hh hhw hpne hpd hp2 hp6
  rw [parseCore, h1, h2, h3, h4, h5]
  simp only [tryPat]
  rw [pyInt_digits p hpne hpd]
  rfl

lemma digit_off_le {c : Char} (h : c.isDigit = true) : c.toNat - '0'.toNat ≤ 9 := by
  simp only [Char.isDigit, Bool.and_eq_true, decide_eq_true_eq] at h
  obtain ⟨h1, h2⟩ := h
  have g2 : c.val.toNat ≤ 57 := h2
  have g1 : 48 ≤ c.val.toNat := h1
  have h0 : ('0' : Char).val.toNat = 48 := rfl
  simp only [Char.toNat]
  omega

lemma digitsVal_aux (cs : List Char) :
    ∀ a : Nat, (∀ c ∈ cs, c.isDigit = true) →
      cs.foldl (fun a c => a * 10 + (c.toNat - '0'.toNat)) a < (a + 1) * 10 ^ cs.length := by
  induction cs with
  | nil => intro a _; simp
  | cons c tl ih =>
    intro a hall
    rw [List.foldl_cons]
    have hd9 : c.toNat - '0'.toNat ≤ 9 := digit_off_le (hall c (List.mem_cons_self c tl))
    have hrec := ih (a * 10 + (c.toNat - '0'.toNat))
      (fun x hx => hall x (List.mem_cons_of_mem c hx))
    have hstep : (a * 10 + (c.toNat - '0'.toNat) + 1) * 10 ^ tl.length
        ≤ (a + 1) * 10 ^ (c :: tl).length := by
      rw [List.length_cons, pow_succ]
      calc (a * 10 + (c.toNat - '0'.toNat) + 1) * 10 ^ tl.length
          ≤ ((a + 1) * 10) * 10 ^ tl.length :=
            Nat.mul_le_mul_right _ (by omega)
        _ = (a + 1) * (10 ^ tl.length * 10) := by ring
    omega

lemma digitsVal_lt (cs : List Char) (h : ∀ c ∈ cs, c.isDigit = true) :
    digitsVal cs < 10 ^ cs.length :=
  by simpa using digitsVal_aux cs 0 h

/-- **C6** (amended): for the credential-free `host:port` shape the
returned port is the integer value of the 2–6-digit port token, hence it
satisfies `0 ≤ port ≤ 999999`; the claimed bounds `1 ≤ port ≤ 65535` are
not enforced (ports such as `0` from `"00"` or `999999` are returned). -/
theorem c6_amended_port_range :
    ∀ (h p : List Char), baseTok h p →
      parse_proxy_line (some (String.mk (embedLine .s5 h p [] [])))
          = .ok (some ⟨String.mk h, (digitsVal p : Int), none, none⟩)
        ∧ 0 ≤ (digitsVal p : Int) ∧ (digitsVal p : Int) ≤ 999999 := by
  intro h p hbase
  obtain ⟨hh, hhw, hpd, hp2, hp6⟩ := hbase
  have hhw' := List.all_eq_true.mp hhw
  have hpd' := List.all_eq_true.mp hpd
  refine ⟨?_, by positivity, ?_⟩
  · have hline : embedLine .s5 h p [] [] = h ++ ':' :: p := by
      simp [embedLine]
    rw [hline, parse_line_core _ (by simp)
      (noWs_append (fun c hc => word_not_ws (hhw' c hc))
        (noWs_cons (by decide) (fun c hc => digit_not_ws (hpd' c hc))))]
    exact shape5_correct h p hh hhw' hpd' hp2 hp6
  · have hlt : digitsVal p < 10 ^ p.length := digitsVal_lt p hpd'
    have hle : (10 : Nat) ^ p.length ≤ 10 ^ 6 := Nat.pow_le_pow_right (by omega) hp6
    have : digitsVal p ≤ 999999 := by omega
    exact_mod_cast this

/-- Witness for C6's amended theorem at `"site.com:99999"`. -/
theorem c6_amended_port_range_witness :
    parse_proxy_line (some (String.mk (embedLine .s5 "site.com".data "99999".data [] [])))
        = .ok (some ⟨"site.com", (99999 : Int), none, none⟩)
      ∧ (99999 : Int) ≤ 999999 :=
  ⟨by
    have := (c6_amended_port_range "site.com".data "99999".data
      (by refine ⟨?_, ?_, ?_, ?_, ?_⟩ <;> decide)).1
    simpa using this,
   by decide⟩

end SharedState
